import Mathlib

/-!
Verification of the CakeFund Tracker (src/cake-fund-tracker/src/App.jsx).

The file shallowly embeds the pure client-side logic of the application:
the calendar arithmetic behind `upcomingBirthdays`, the contribution
aggregation in the render loop, the contribution state machine
(`handleContributionClick`, `handlePledgeContribution`, the amount modal),
the store update `updateContribution`, and the deletion batch
`handleDeleteCoworker`.

JavaScript `Date` values are modelled as civil datetimes
(year, month, day, milliseconds-past-midnight); for valid civil datetimes
the lexicographic order on those fields coincides with the epoch-timestamp
order that JavaScript comparisons use.  `Date.prototype.setFullYear`
keeps month/day/time and normalises the one possible overflow for a valid
input date, Feb 29 in a non-leap year, to Mar 1 — exactly as the
JavaScript date arithmetic does.  `setDate(getDate() + 30)` is modelled as
thirty civil-day increments, which is what the JavaScript day-overflow
normalisation computes.  JavaScript numbers used as money are modelled as
rationals; status strings stay strings so that closure of the status
alphabet is a real theorem rather than a typing artefact.
-/

/-- `true` iff `y` is a Gregorian leap year. -/
def isLeap (y : Int) : Bool :=
  y % 4 == 0 && (y % 100 != 0 || y % 400 == 0)

/-- Number of days of month `m` (1–12) in year `y`. -/
def daysInMonth (y : Int) (m : Nat) : Nat :=
  match m with
  | 2 => if isLeap y then 29 else 28
  | 4 | 6 | 9 | 11 => 30
  | _ => 31

/-- A JavaScript `Date` viewed as a civil datetime: year, month (1–12),
day of month, and milliseconds past local midnight. -/
structure DateTime where
  year : Int
  month : Nat
  day : Nat
  time : Nat
deriving DecidableEq

/-- The civil datetime denotes an actual instant. -/
def DateTime.Valid (d : DateTime) : Prop :=
  1 ≤ d.month ∧ d.month ≤ 12 ∧ 1 ≤ d.day ∧ d.day ≤ daysInMonth d.year d.month ∧
    d.time < 86400000

instance (d : DateTime) : Decidable d.Valid := by
  unfold DateTime.Valid; infer_instance

/-- Strict order on civil datetimes; for valid datetimes this is the
epoch-timestamp order used by JavaScript `Date` comparison. -/
def DateTime.lt (a b : DateTime) : Prop :=
  a.year < b.year ∨ (a.year = b.year ∧
    (a.month < b.month ∨ (a.month = b.month ∧
      (a.day < b.day ∨ (a.day = b.day ∧ a.time < b.time)))))

/-- Non-strict order on civil datetimes. -/
def DateTime.le (a b : DateTime) : Prop :=
  a.year < b.year ∨ (a.year = b.year ∧
    (a.month < b.month ∨ (a.month = b.month ∧
      (a.day < b.day ∨ (a.day = b.day ∧ a.time ≤ b.time)))))

instance (a b : DateTime) : Decidable (DateTime.lt a b) := by
  unfold DateTime.lt; infer_instance

instance (a b : DateTime) : Decidable (DateTime.le a b) := by
  unfold DateTime.le; infer_instance

/-- `d.setFullYear y`: keep month/day/time, replace the year.  On a valid
input the only field overflow is Feb 29 against a non-leap target year,
which JavaScript date normalisation rolls over to Mar 1. -/
def DateTime.setFullYear (d : DateTime) (y : Int) : DateTime :=
  if d.month == 2 && d.day == 29 && !isLeap y then
    { year := y, month := 3, day := 1, time := d.time }
  else
    { year := y, month := d.month, day := d.day, time := d.time }

/-- Advance a civil datetime by one day, rolling month and year. -/
def DateTime.nextDay (d : DateTime) : DateTime :=
  if d.day + 1 ≤ daysInMonth d.year d.month then
    { d with day := d.day + 1 }
  else if d.month + 1 ≤ 12 then
    { d with month := d.month + 1, day := 1 }
  else
    { year := d.year + 1, month := 1, day := 1, time := d.time }

/-- `setDate(getDate() + n)`: advance by `n` civil days. -/
def DateTime.addDays (d : DateTime) : Nat → DateTime
  | 0 => d
  | n + 1 => (DateTime.addDays d n).nextDay

/-- The next-birthday resolver inlined in `upcomingBirthdays`
(App.jsx lines 178–185): copy the stored birthday, move it to today's
year, and move it one more year forward when it then lies strictly
before today. -/
def resolveNextBirthday (today b : DateTime) : DateTime :=
  let birthday := b.setFullYear today.year
  if DateTime.lt birthday today then birthday.setFullYear (today.year + 1)
  else birthday


-- ## Data model

/-- A per-contributor entry of a contribution record: `{ amount, status }`.
The status is kept as a string, as in the JavaScript source, so that
closure of the status alphabet is provable rather than assumed. -/
structure Entry where
  amount : ℚ
  status : String
deriving DecidableEq

/-- A coworker document: id, display name, optional birthday. -/
structure Coworker where
  id : String
  name : String
  birthday : Option DateTime
deriving DecidableEq

/-- A contribution document: Firestore doc id, recipient id, cycle year,
and the `contributors` map, modelled as an association list in object
insertion order. -/
structure Contribution where
  id : String
  birthdayCoworkerId : String
  year : Int
  contributors : List (String × Entry)
deriving DecidableEq

/-- Read a key of a JavaScript object modelled as an association list. -/
def getKey (l : List (String × Entry)) (k : String) : Option Entry :=
  (l.find? (fun p => p.1 == k)).map Prod.snd

/-- `{ ...l, [k]: v }`: replace the value at `k` in place when the key
exists, otherwise append the new key, as object spread does. -/
def setKey (l : List (String × Entry)) (k : String) (v : Entry) :
    List (String × Entry) :=
  if l.any (fun p => p.1 == k) then
    l.map (fun p => if p.1 == k then (k, v) else p)
  else l ++ [(k, v)]

/-- `delete obj[k]`: drop the key, preserving the order of the others. -/
def eraseKey (l : List (String × Entry)) (k : String) :
    List (String × Entry) :=
  l.filter (fun p => !(p.1 == k))

/-- The composite document id `${birthdayCoworkerId}_${year}`. -/
def contributionId (birthdayCoworkerId : String) (year : Int) : String :=
  s!"{birthdayCoworkerId}_{year}"

/-- `contributions[contributionId]?.contributors || {}` (App.jsx line 358):
the contributors map of the record with the given doc id, or the empty
map when no such record exists. -/
def contributionDataFor (contributions : List Contribution) (cid : String) :
    List (String × Entry) :=
  match contributions.find? (fun c => c.id == cid) with
  | some c => c.contributors
  | none => []

-- ## Contribution summary aggregation (App.jsx lines 359–363)

/-- `Object.values(contributionData).filter(c => c.status === 'paid')`. -/
def paidContributions (contributionData : List (String × Entry)) : List Entry :=
  (contributionData.map Prod.snd).filter (fun c => c.status == "paid")

/-- `paidContributions.length`. -/
def paidCount (contributionData : List (String × Entry)) : Nat :=
  (paidContributions contributionData).length

/-- `paidContributions.reduce((sum, c) => sum + c.amount, 0)`. -/
def totalAmount (contributionData : List (String × Entry)) : ℚ :=
  (paidContributions contributionData).foldl (fun sum c => sum + c.amount) 0

/-- `coworkers.length > 1 ? coworkers.length - 1 : 0` (line 362). -/
def totalContributors (coworkers : List Coworker) : Nat :=
  if coworkers.length > 1 then coworkers.length - 1 else 0

/-- `totalContributors > 0 ? (paidCount / totalContributors) * 100 : 0`
(line 363). -/
def progress (paid totalContribs : Nat) : ℚ :=
  if totalContribs > 0 then ((paid : ℚ) / (totalContribs : ℚ)) * 100 else 0

-- ## Store writes

/-- `updateContribution` (App.jsx lines 262–287): look up the record for
`(birthdayCoworkerId, current year)`; when absent, lazily build a
contributors map holding every coworker at `unpaid/0`; overwrite the
acting contributor's entry; write the record back.  The `setDoc ... merge`
call is modelled as replacing the record's fields: the written
contributors map was itself built from the current snapshot, so the merge
and the replacement coincide. -/
def updateContribution (contributions : List Contribution)
    (coworkers : List Coworker) (birthdayCoworkerId contributorId : String)
    (year : Int) (newContributionData : Entry) : List Contribution :=
  let cid := contributionId birthdayCoworkerId year
  match contributions.find? (fun c => c.id == cid) with
  | some c =>
      let updatedContributors := setKey c.contributors contributorId newContributionData
      contributions.map (fun d =>
        if d.id == cid then
          { d with birthdayCoworkerId := birthdayCoworkerId, year := year,
                   contributors := updatedContributors }
        else d)
  | none =>
      let currentContributors :=
        coworkers.map (fun cw => (cw.id, Entry.mk 0 "unpaid"))
      let updatedContributors := setKey currentContributors contributorId newContributionData
      contributions ++
        [{ id := cid, birthdayCoworkerId := birthdayCoworkerId, year := year,
           contributors := updatedContributors }]

-- ## Contribution state machine

/-- Outcome of the pledge-amount modal for one interaction: the user
either dismissed it (Cancel or the close button) or pressed
"Pledge Amount" with `parseFloat` of the typed text, `none` meaning the
text did not parse to a number. -/
inductive ModalOutcome where
  | cancel : ModalOutcome
  | save : Option ℚ → ModalOutcome
deriving DecidableEq

/-- `ContributionModal.handleSave` composed with `handlePledgeContribution`
(App.jsx lines 289–296 and 709–716): the pledge goes through exactly when
the typed amount parses to a positive number; otherwise the modal closes
with no write. -/
def modalPledge (m : ModalOutcome) : Option ℚ :=
  match m with
  | .cancel => none
  | .save none => none
  | .save (some parsedAmount) =>
      if 0 < parsedAmount then some parsedAmount else none

/-- `handleContributionClick` (App.jsx lines 298–310) together with the
modal it opens in the `unpaid` branch: given the clicked cell's entry
(`none` for an absent one) and the modal outcome, return the entry
written to the store, or `none` when no write happens. -/
def handleContributionClick (contribution : Option Entry) (m : ModalOutcome) :
    Option Entry :=
  let currentStatus :=
    match contribution with
    | some c => if c.status == "" then "unpaid" else c.status
    | none => "unpaid"
  let currentAmount :=
    match contribution with
    | some c => c.amount
    | none => 0
  if currentStatus == "unpaid" then
    match modalPledge m with
    | some amount => some (Entry.mk amount "pledged")
    | none => none
  else if currentStatus == "pledged" then
    some (Entry.mk currentAmount "paid")
  else if currentStatus == "paid" then
    some (Entry.mk 0 "unpaid")
  else none

/-- The entry taken as `unpaid/0` when absent from the store. -/
def initialEntry : Entry := Entry.mk 0 "unpaid"

/-- One full user interaction on a (recipient, contributor, year) pair,
seen at the level of that pair's stored entry: the written entry when a
write happens, the old entry otherwise. -/
def interact (e : Entry) (m : ModalOutcome) : Entry :=
  (handleContributionClick (some e) m).getD e

/-- The entry after a sequence of interactions starting from the initial
(absent, hence `unpaid/0`) state. -/
def runClicks (ms : List ModalOutcome) : Entry :=
  ms.foldl interact initialEntry

/-- The intended strict cycle of statuses: position `n` of
`unpaid, pledged, paid, unpaid, ...`. -/
def cycleStatus (n : Nat) : String :=
  match n % 3 with
  | 0 => "unpaid"
  | 1 => "pledged"
  | _ => "paid"

-- ## Click interaction at store level

/-- The entry currently stored for contributor `c` in the record of
`(recipient r, year y)`. -/
def currentEntry (contributions : List Contribution) (r : String) (y : Int)
    (c : String) : Option Entry :=
  getKey (contributionDataFor contributions (contributionId r y)) c

/-- A user interaction on a contribution cell, at the level of the whole
contributions collection: apply `handleContributionClick` to the clicked
entry and run `updateContribution` exactly when it yields a write. -/
def clickInteraction (contributions : List Contribution)
    (coworkers : List Coworker) (r c : String) (y : Int) (m : ModalOutcome) :
    List Contribution :=
  match handleContributionClick (currentEntry contributions r y c) m with
  | some newData => updateContribution contributions coworkers r c y newData
  | none => contributions

-- ## Coworker deletion (App.jsx lines 224–248)

/-- The per-record update queued by `handleDeleteCoworker`'s batch: when
the record references the deleted coworker, rewrite its contributors map
without that key; otherwise queue nothing, leaving the record as is. -/
def stripContributor (coworkerId : String) (c : Contribution) : Contribution :=
  if (getKey c.contributors coworkerId).isSome then
    { c with contributors := eraseKey c.contributors coworkerId }
  else c

/-- `handleDeleteCoworker`: one batch that deletes the coworker document
and strips the coworker's key from every contribution record referencing
it.  The batch commit is a single atomic transition of the store, so the
whole update is one function application on the store state. -/
def handleDeleteCoworker (coworkers : List Coworker)
    (contributions : List Contribution) (coworkerId : String) :
    List Coworker × List Contribution :=
  (coworkers.filter (fun cw => !(cw.id == coworkerId)),
   contributions.map (stripContributor coworkerId))

-- ## Rendering of a contribution cell (App.jsx lines 510, 536)

/-- `contributionData[cw.id] || { amount: 0, status: 'unpaid' }`. -/
def displayedEntry (contributionData : List (String × Entry)) (cwId : String) :
    Entry :=
  (getKey contributionData cwId).getD (Entry.mk 0 "unpaid")

/-- The amount text of a contribution cell: rendered exactly when
`amount > 0` (App.jsx line 536), independent of the status. -/
def renderedAmount (contributionData : List (String × Entry)) (cwId : String) :
    Option ℚ :=
  let c := displayedEntry contributionData cwId
  if 0 < c.amount then some c.amount else none

-- ## Upcoming-birthday list (App.jsx lines 171–190)

/-- The `upcomingBirthdays` memo: resolve each stored birthday against
today, drop coworkers without one, keep resolutions inside
`[today, today + 30 days]`, sort ascending by resolved date.  The
JavaScript `sort` on timestamps is a stable ascending sort, modelled by
`mergeSort` under `DateTime.le`. -/
def upcomingBirthdays (today : DateTime) (coworkers : List Coworker) :
    List (Coworker × DateTime) :=
  let next30Days := today.addDays 30
  ((coworkers.filterMap (fun cw =>
      cw.birthday.map (fun b => (cw, resolveNextBirthday today b))))
    |>.filter (fun p =>
      decide (DateTime.le today p.2) && decide (DateTime.le p.2 next30Days))
    |>.mergeSort (fun p q => decide (DateTime.le p.2 q.2)))

-- Basic facts about the date operations.

theorem setFullYear_year (d : DateTime) (y : Int) : (d.setFullYear y).year = y := by
  unfold DateTime.setFullYear; split <;> rfl

theorem setFullYear_time (d : DateTime) (y : Int) : (d.setFullYear y).time = d.time := by
  unfold DateTime.setFullYear; split <;> rfl

theorem nextDay_time (d : DateTime) : d.nextDay.time = d.time := by
  unfold DateTime.nextDay; split
  · rfl
  · split <;> rfl

theorem addDays_time (d : DateTime) (n : Nat) : (d.addDays n).time = d.time := by
  induction n with
  | zero => rfl
  | succ n ih => rw [DateTime.addDays, nextDay_time, ih]

theorem DateTime.le_of_not_lt {a b : DateTime} (h : ¬ DateTime.lt a b) :
    DateTime.le b a := by
  unfold DateTime.lt at h
  unfold DateTime.le
  omega

theorem DateTime.le_trans {a b c : DateTime}
    (h1 : DateTime.le a b) (h2 : DateTime.le b c) : DateTime.le a c := by
  unfold DateTime.le at h1 h2 ⊢
  omega

theorem DateTime.le_total (a b : DateTime) :
    DateTime.le a b ∨ DateTime.le b a := by
  unfold DateTime.le
  omega

/-- The resolver never returns an instant before `today`. -/
theorem resolve_ge (today b : DateTime) :
    DateTime.le today (resolveNextBirthday today b) := by
  unfold resolveNextBirthday
  by_cases h : DateTime.lt (b.setFullYear today.year) today
  · simp only [h, if_true]
    have hy := setFullYear_year (b.setFullYear today.year) (today.year + 1)
    exact Or.inl (by omega)
  · simp only [h, if_false]
    exact DateTime.le_of_not_lt h

/-- The resolver preserves the stored time-of-day. -/
theorem resolve_time (today b : DateTime) :
    (resolveNextBirthday today b).time = b.time := by
  unfold resolveNextBirthday
  by_cases h : DateTime.lt (b.setFullYear today.year) today
  · simp only [h, if_true]
    rw [setFullYear_time, setFullYear_time]
  · simp only [h, if_false]
    rw [setFullYear_time]

-- ## Association-list lemmas

theorem getKey_nil (k : String) : getKey [] k = none := rfl

theorem getKey_cons (x : String × Entry) (l : List (String × Entry)) (k : String) :
    getKey (x :: l) k = if x.1 == k then some x.2 else getKey l k := by
  unfold getKey
  by_cases h : x.1 == k
  · simp [List.find?_cons, h]
  · simp [List.find?_cons, h]

theorem getKey_map_set_self (l : List (String × Entry)) (k : String) (v : Entry)
    (h : (l.any fun p => p.1 == k) = true) :
    getKey (l.map (fun p => if p.1 == k then (k, v) else p)) k = some v := by
  induction l with
  | nil => simp at h
  | cons x l ih =>
      by_cases hx : x.1 = k
      · simp [List.map_cons, getKey_cons, hx]
      · have h' : (l.any fun p => p.1 == k) = true := by simpa [hx] using h
        simpa [List.map_cons, getKey_cons, hx] using ih h'

theorem getKey_map_set_ne (l : List (String × Entry)) (k k' : String) (v : Entry)
    (hne : k' ≠ k) :
    getKey (l.map (fun p => if p.1 == k then (k, v) else p)) k' = getKey l k' := by
  induction l with
  | nil => rfl
  | cons x l ih =>
      have ih' : getKey (List.map (fun p => if p.1 = k then (k, v) else p) l) k'
          = getKey l k' := by simpa using ih
      by_cases hx : x.1 = k
      · simp [List.map_cons, getKey_cons, hx, Ne.symm hne, ih']
      · simp [List.map_cons, getKey_cons, hx, ih']

theorem getKey_append_single_self (l : List (String × Entry)) (k : String)
    (v : Entry) (h : (l.any fun p => p.1 == k) = false) :
    getKey (l ++ [(k, v)]) k = some v := by
  induction l with
  | nil => simp [getKey_cons]
  | cons x l ih =>
      simp only [List.any_cons, Bool.or_eq_false_iff] at h
      have hx : x.1 ≠ k := by simpa using h.1
      simp [List.cons_append, getKey_cons, hx, ih h.2]

theorem getKey_append_single_ne (l : List (String × Entry)) (k k' : String)
    (v : Entry) (hne : k' ≠ k) :
    getKey (l ++ [(k, v)]) k' = getKey l k' := by
  induction l with
  | nil => simp [getKey_nil, getKey_cons, Ne.symm hne]
  | cons x l ih => simp [List.cons_append, getKey_cons, ih]

theorem getKey_setKey (l : List (String × Entry)) (k : String) (v : Entry) :
    getKey (setKey l k v) k = some v := by
  unfold setKey
  split
  case isTrue h => exact getKey_map_set_self l k v h
  case isFalse h => exact getKey_append_single_self l k v (Bool.eq_false_iff.mpr h)

theorem getKey_setKey_ne (l : List (String × Entry)) (k k' : String) (v : Entry)
    (hne : k' ≠ k) : getKey (setKey l k v) k' = getKey l k' := by
  unfold setKey
  split
  · exact getKey_map_set_ne l k k' v hne
  · exact getKey_append_single_ne l k k' v hne

theorem getKey_setKey_isSome (l : List (String × Entry)) (k k' : String) (v : Entry) :
    (getKey (setKey l k v) k').isSome ↔ ((getKey l k').isSome ∨ k' = k) := by
  by_cases h : k' = k
  · subst h
    simp [getKey_setKey]
  · rw [getKey_setKey_ne l k k' v h]
    simp [h]

theorem getKey_eraseKey_self (l : List (String × Entry)) (k : String) :
    getKey (eraseKey l k) k = none := by
  unfold eraseKey
  induction l with
  | nil => rfl
  | cons x l ih =>
      by_cases hx : x.1 == k
      · simp [List.filter_cons, hx, ih]
      · simp [List.filter_cons, hx, getKey_cons, ih]

theorem getKey_eraseKey_ne (l : List (String × Entry)) (k k' : String)
    (hne : k' ≠ k) : getKey (eraseKey l k) k' = getKey l k' := by
  unfold eraseKey
  induction l with
  | nil => rfl
  | cons x l ih =>
      by_cases hx : x.1 == k
      · have hx' : x.1 = k := by simpa using hx
        have : ¬ (x.1 == k') = true := by simp [hx']; exact Ne.symm hne
        simp [List.filter_cons, hx, getKey_cons, this, ih]
      · simp [List.filter_cons, hx, getKey_cons, ih]

theorem eraseKey_of_not_mem (l : List (String × Entry)) (k : String)
    (h : getKey l k = none) : eraseKey l k = l := by
  unfold eraseKey
  unfold getKey at h
  rw [Option.map_eq_none'] at h
  rw [List.find?_eq_none] at h
  apply List.filter_eq_self.mpr
  intro p hp
  have hk := h p hp
  simp only [beq_iff_eq] at hk
  simp [hk]

theorem getKey_initMap (coworkers : List Coworker) (k : String) :
    (getKey (coworkers.map (fun cw => (cw.id, Entry.mk 0 "unpaid"))) k).isSome
      ↔ k ∈ coworkers.map Coworker.id := by
  induction coworkers with
  | nil => simp [getKey_nil]
  | cons cw l ih =>
      by_cases h : cw.id == k
      · have h' : cw.id = k := by simpa using h
        simp [List.map_cons, getKey_cons, h, h']
      · have h' : cw.id ≠ k := by simpa using h
        simp [List.map_cons, getKey_cons, h, ih, Ne.symm h']

-- ## State-machine step lemmas

theorem interact_unpaid_write (e : Entry) (m : ModalOutcome) (q : ℚ)
    (h : e.status = "unpaid") (hq : modalPledge m = some q) :
    interact e m = Entry.mk q "pledged" := by
  simp [interact, handleContributionClick, h, hq]

theorem interact_unpaid_nowrite (e : Entry) (m : ModalOutcome)
    (h : e.status = "unpaid") (hq : modalPledge m = none) :
    interact e m = e := by
  simp [interact, handleContributionClick, h, hq]

theorem interact_pledged (e : Entry) (m : ModalOutcome)
    (h : e.status = "pledged") : interact e m = Entry.mk e.amount "paid" := by
  simp [interact, handleContributionClick, h]

theorem interact_paid (e : Entry) (m : ModalOutcome)
    (h : e.status = "paid") : interact e m = Entry.mk 0 "unpaid" := by
  simp [interact, handleContributionClick, h]

theorem interact_unpaid_status (e : Entry) (m : ModalOutcome)
    (h : e.status = "unpaid") :
    (interact e m).status = "unpaid" ∨ (interact e m).status = "pledged" := by
  cases hq : modalPledge m with
  | none => rw [interact_unpaid_nowrite e m h hq]; exact Or.inl h
  | some q => rw [interact_unpaid_write e m q h hq]; exact Or.inr rfl

/-- Closure of the status alphabet under one interaction. -/
theorem interact_status_closed (e : Entry) (m : ModalOutcome)
    (h : e.status = "unpaid" ∨ e.status = "pledged" ∨ e.status = "paid") :
    (interact e m).status = "unpaid" ∨ (interact e m).status = "pledged" ∨
      (interact e m).status = "paid" := by
  rcases h with h | h | h
  · rcases interact_unpaid_status e m h with h' | h'
    · exact Or.inl h'
    · exact Or.inr (Or.inl h')
  · rw [interact_pledged e m h]; exact Or.inr (Or.inr rfl)
  · rw [interact_paid e m h]; exact Or.inl rfl

theorem foldl_interact_status_closed (ms : List ModalOutcome) :
    ∀ e : Entry,
      (e.status = "unpaid" ∨ e.status = "pledged" ∨ e.status = "paid") →
      ((ms.foldl interact e).status = "unpaid" ∨
        (ms.foldl interact e).status = "pledged" ∨
        (ms.foldl interact e).status = "paid") := by
  induction ms with
  | nil => intro e h; exact h
  | cons m ms ih =>
      intro e h
      exact ih (interact e m) (interact_status_closed e m h)

theorem runClicks_append (ms : List ModalOutcome) (m : ModalOutcome) :
    runClicks (ms ++ [m]) = interact (runClicks ms) m := by
  unfold runClicks
  rw [List.foldl_append]
  rfl

theorem modalPledge_save_one : modalPledge (ModalOutcome.save (some 1)) = some 1 := by
  simp [modalPledge]

theorem runClicks_replicate_status (n : Nat) :
    (runClicks (List.replicate n (ModalOutcome.save (some 1)))).status =
      cycleStatus n := by
  induction n with
  | zero => rfl
  | succ n ih =>
      rw [List.replicate_succ', runClicks_append]
      have h3 : n % 3 = 0 ∨ n % 3 = 1 ∨ n % 3 = 2 := by omega
      rcases h3 with h | h | h
      · have hs : (runClicks (List.replicate n (ModalOutcome.save (some 1)))).status
            = "unpaid" := by rw [ih]; unfold cycleStatus; rw [h]
        rw [interact_unpaid_write _ _ 1 hs modalPledge_save_one]
        unfold cycleStatus
        have : (n + 1) % 3 = 1 := by omega
        rw [this]
      · have hs : (runClicks (List.replicate n (ModalOutcome.save (some 1)))).status
            = "pledged" := by rw [ih]; unfold cycleStatus; rw [h]
        rw [interact_pledged _ _ hs]
        unfold cycleStatus
        have : (n + 1) % 3 = 2 := by omega
        rw [this]
      · have hs : (runClicks (List.replicate n (ModalOutcome.save (some 1)))).status
            = "paid" := by rw [ih]; unfold cycleStatus; rw [h]
        rw [interact_paid _ _ hs]
        unfold cycleStatus
        have : (n + 1) % 3 = 0 := by omega
        rw [this]

-- ## Store-update lemmas

theorem contribution_update_preserves_id (cid r : String) (y : Int)
    (u : List (String × Entry)) (d : Contribution) :
    ((if d.id == cid then
        { d with birthdayCoworkerId := r, year := y, contributors := u }
      else d) : Contribution).id = d.id := by
  split <;> rfl

theorem contributionDataFor_updateContribution (conts : List Contribution)
    (cws : List Coworker) (r c : String) (y : Int) (v : Entry) :
    contributionDataFor (updateContribution conts cws r c y v)
        (contributionId r y) =
      setKey (match conts.find? (fun d => d.id == contributionId r y) with
              | some d => d.contributors
              | none => cws.map (fun cw => (cw.id, Entry.mk 0 "unpaid"))) c v := by
  unfold updateContribution contributionDataFor
  cases hf : conts.find? (fun d => d.id == contributionId r y) with
  | none =>
      simp only [hf]
      rw [List.find?_append, hf]
      simp [List.find?_cons]
  | some d =>
      simp only [hf]
      rw [List.find?_map]
      have hpred :
          ((fun x : Contribution => x.id == contributionId r y) ∘
            (fun x : Contribution =>
              if x.id == contributionId r y then
                { x with birthdayCoworkerId := r, year := y,
                         contributors := setKey d.contributors c v }
              else x)) = (fun x : Contribution => x.id == contributionId r y) := by
        funext x
        by_cases hx : x.id == contributionId r y <;> simp [Function.comp, hx]
      rw [hpred, hf]
      have hd := List.find?_some hf
      simp only [beq_iff_eq] at hd
      simp [hd]

theorem currentEntry_updateContribution (conts : List Contribution)
    (cws : List Coworker) (r c : String) (y : Int) (v : Entry) :
    currentEntry (updateContribution conts cws r c y v) r y c = some v := by
  unfold currentEntry
  rw [contributionDataFor_updateContribution]
  exact getKey_setKey _ c v

-- ## Membership in the upcoming list

theorem mem_upcomingBirthdays (today : DateTime) (cws : List Coworker)
    (p : Coworker × DateTime) :
    p ∈ upcomingBirthdays today cws ↔
      ((∃ cw b, cw ∈ cws ∧ cw.birthday = some b ∧
          p = (cw, resolveNextBirthday today b)) ∧
        DateTime.le today p.2 ∧ DateTime.le p.2 (today.addDays 30)) := by
  unfold upcomingBirthdays
  rw [List.mem_mergeSort, List.mem_filter, List.mem_filterMap]
  constructor
  · rintro ⟨⟨cw, hcw, hmap⟩, hwin⟩
    rw [Option.map_eq_some'] at hmap
    obtain ⟨b, hb, hpb⟩ := hmap
    simp only [Bool.and_eq_true, decide_eq_true_eq] at hwin
    exact ⟨⟨cw, b, hcw, hb, hpb.symm⟩, hwin.1, hwin.2⟩
  · rintro ⟨⟨cw, b, hcw, hb, hpb⟩, h1, h2⟩
    refine ⟨⟨cw, hcw, ?_⟩, ?_⟩
    · rw [hb, Option.map_some', hpb]
    · simp only [Bool.and_eq_true, decide_eq_true_eq]
      exact ⟨h1, h2⟩

-- ## Aggregation lemmas

theorem foldl_add_amount (l : List Entry) (a : ℚ) :
    l.foldl (fun sum c => sum + c.amount) a = a + (l.map Entry.amount).sum := by
  induction l generalizing a with
  | nil => simp
  | cons c l ih =>
      rw [List.foldl_cons, ih, List.map_cons, List.sum_cons]
      ring

-- ## Claim theorems

/-- Claim C1: starting from the implicit initial state (`unpaid`, amount 0),
the statuses reachable by repeated single user interactions
(`handleContributionClick`, resolving the amount modal in the `unpaid`
case) stay inside `{unpaid, pledged, paid}`; one interaction on `unpaid`
leads only to `unpaid` or `pledged` (never directly to `paid`), one
interaction on `pledged` always leads to `paid` (never back to `unpaid`),
one interaction on `paid` always leads to `unpaid`, and under always
confirmed pledges the status sequence is exactly the cycle
`unpaid → pledged → paid → unpaid → ...`. -/
theorem spec_c1 :
    (∀ ms : List ModalOutcome,
      (runClicks ms).status = "unpaid" ∨ (runClicks ms).status = "pledged" ∨
        (runClicks ms).status = "paid") ∧
    (∀ (e : Entry) (m : ModalOutcome), e.status = "unpaid" →
      (interact e m).status = "unpaid" ∨ (interact e m).status = "pledged") ∧
    (∀ (e : Entry) (m : ModalOutcome), e.status = "pledged" →
      (interact e m).status = "paid") ∧
    (∀ (e : Entry) (m : ModalOutcome), e.status = "paid" →
      (interact e m).status = "unpaid") ∧
    (∀ n : Nat,
      (runClicks (List.replicate n (ModalOutcome.save (some 1)))).status =
        cycleStatus n) := by
  refine ⟨?_, ?_, ?_, ?_, runClicks_replicate_status⟩
  · intro ms
    exact foldl_interact_status_closed ms initialEntry (Or.inl rfl)
  · exact interact_unpaid_status
  · intro e m h
    rw [interact_pledged e m h]
  · intro e m h
    rw [interact_paid e m h]

/-- Witness for `spec_c1` at concrete entries and interaction lists. -/
theorem spec_c1_witness :
    ((runClicks [ModalOutcome.save (some 5)]).status = "unpaid" ∨
      (runClicks [ModalOutcome.save (some 5)]).status = "pledged" ∨
      (runClicks [ModalOutcome.save (some 5)]).status = "paid") ∧
    ((interact (Entry.mk 0 "unpaid") ModalOutcome.cancel).status = "unpaid" ∨
      (interact (Entry.mk 0 "unpaid") ModalOutcome.cancel).status = "pledged") ∧
    (interact (Entry.mk 5 "pledged") ModalOutcome.cancel).status = "paid" ∧
    (interact (Entry.mk 5 "paid") ModalOutcome.cancel).status = "unpaid" ∧
    (runClicks (List.replicate 4 (ModalOutcome.save (some 1)))).status =
      cycleStatus 4 :=
  ⟨spec_c1.1 [ModalOutcome.save (some 5)],
   spec_c1.2.1 (Entry.mk 0 "unpaid") ModalOutcome.cancel rfl,
   spec_c1.2.2.1 (Entry.mk 5 "pledged") ModalOutcome.cancel rfl,
   spec_c1.2.2.2.1 (Entry.mk 5 "paid") ModalOutcome.cancel rfl,
   spec_c1.2.2.2.2 4⟩

/-- Claim C2: the aggregated `totalAmount` is the sum of `amount` over
exactly the entries with status `paid` and `paidCount` is their number;
an entry whose status is not `paid` (`pledged` or `unpaid`) contributes
nothing to either; an absent record (treated as all-implicit-unpaid)
yields total 0 and count 0. -/
theorem spec_c2 :
    (∀ contributionData : List (String × Entry),
      totalAmount contributionData =
        (((contributionData.map Prod.snd).filter
            (fun c => c.status == "paid")).map Entry.amount).sum ∧
      paidCount contributionData =
        ((contributionData.map Prod.snd).filter
            (fun c => c.status == "paid")).length) ∧
    (∀ (l1 l2 : List (String × Entry)) (k : String) (e : Entry),
      e.status ≠ "paid" →
      totalAmount (l1 ++ (k, e) :: l2) = totalAmount (l1 ++ l2) ∧
      paidCount (l1 ++ (k, e) :: l2) = paidCount (l1 ++ l2)) ∧
    (∀ (conts : List Contribution) (cid : String),
      conts.find? (fun c => c.id == cid) = none →
      totalAmount (contributionDataFor conts cid) = 0 ∧
      paidCount (contributionDataFor conts cid) = 0) := by
  refine ⟨?_, ?_, ?_⟩
  · intro l
    constructor
    · rw [totalAmount, foldl_add_amount, zero_add, paidContributions]
    · rw [paidCount, paidContributions]
  · intro l1 l2 k e he
    have hdrop : paidContributions (l1 ++ (k, e) :: l2) =
        paidContributions (l1 ++ l2) := by
      unfold paidContributions
      rw [List.map_append, List.map_append, List.map_cons]
      rw [List.filter_append, List.filter_append, List.filter_cons]
      have : (e.status == "paid") = false := by
        simpa using he
      simp [this]
    constructor
    · rw [totalAmount, totalAmount, hdrop]
    · rw [paidCount, paidCount, hdrop]
  · intro conts cid h
    unfold contributionDataFor
    rw [h]
    exact ⟨rfl, rfl⟩

/-- Witness for `spec_c2`: the spec's own scenario, a `paid` 500 entry
next to a `pledged` 200 entry, plus an absent record. -/
theorem spec_c2_witness :
    (totalAmount [("X", Entry.mk 500 "paid"), ("Y", Entry.mk 200 "pledged")] =
        (((([("X", Entry.mk 500 "paid"), ("Y", Entry.mk 200 "pledged")]).map
            Prod.snd).filter (fun c => c.status == "paid")).map
            Entry.amount).sum ∧
      paidCount [("X", Entry.mk 500 "paid"), ("Y", Entry.mk 200 "pledged")] =
        ((([("X", Entry.mk 500 "paid"), ("Y", Entry.mk 200 "pledged")]).map
            Prod.snd).filter (fun c => c.status == "paid")).length) ∧
    ((Entry.mk 200 "pledged").status ≠ "paid" ∧
      totalAmount ([("X", Entry.mk 500 "paid")] ++ ("Y", Entry.mk 200 "pledged") :: []) =
        totalAmount ([("X", Entry.mk 500 "paid")] ++ []) ∧
      paidCount ([("X", Entry.mk 500 "paid")] ++ ("Y", Entry.mk 200 "pledged") :: []) =
        paidCount ([("X", Entry.mk 500 "paid")] ++ [])) ∧
    (totalAmount (contributionDataFor [] "R_2025") = 0 ∧
      paidCount (contributionDataFor [] "R_2025") = 0) :=
  ⟨spec_c2.1 [("X", Entry.mk 500 "paid"), ("Y", Entry.mk 200 "pledged")],
   ⟨by decide,
    spec_c2.2.1 [("X", Entry.mk 500 "paid")] [] "Y" (Entry.mk 200 "pledged")
      (by decide)⟩,
   spec_c2.2.2 [] "R_2025" rfl⟩

/-- Claim C8: `totalContributors` is the coworker count minus one, floored
at 0 when at most one coworker exists (truncated natural subtraction), and
`progress` is `paidCount / totalContributors * 100` when the denominator
is positive and 0 when it is zero, the division being guarded. -/
theorem spec_c8 :
    (∀ cws : List Coworker, totalContributors cws = cws.length - 1) ∧
    (∀ paid totalContribs : Nat, 0 < totalContribs →
      progress paid totalContribs =
        ((paid : ℚ) / (totalContribs : ℚ)) * 100) ∧
    (∀ paid : Nat, progress paid 0 = 0) := by
  refine ⟨?_, ?_, ?_⟩
  · intro cws
    unfold totalContributors
    split <;> omega
  · intro paid t ht
    unfold progress
    rw [if_pos ht]
  · intro paid
    rfl

/-- Witness for `spec_c8`: the spec's scenario of 4 coworkers, 3 eligible
contributors and 1 paid contribution. -/
theorem spec_c8_witness :
    totalContributors
        [Coworker.mk "a" "A" none, Coworker.mk "b" "B" none,
         Coworker.mk "c" "C" none, Coworker.mk "d" "D" none] =
      ([Coworker.mk "a" "A" none, Coworker.mk "b" "B" none,
        Coworker.mk "c" "C" none, Coworker.mk "d" "D" none] :
          List Coworker).length - 1 ∧
    (0 < 3 ∧ progress 1 3 = ((1 : ℚ) / (3 : ℚ)) * 100) ∧
    progress 1 0 = 0 :=
  ⟨spec_c8.1 _, ⟨by decide, spec_c8.2.1 1 3 (by decide)⟩, spec_c8.2.2 1⟩

/-- Claim C3: for a valid midnight-truncated `today`, the resolved next
birthday is on or after `today`; the candidate year is advanced by one
exactly when the candidate built from today's year lies strictly before
today; and a same-day birthday resolves to today's calendar day. -/
theorem spec_c3 (today b : DateTime) (hv : today.Valid) (ht : today.time = 0) :
    DateTime.le today (resolveNextBirthday today b) ∧
    (resolveNextBirthday today b).year =
      (if DateTime.lt (b.setFullYear today.year) today then today.year + 1
       else today.year) ∧
    (b.month = today.month → b.day = today.day →
      (resolveNextBirthday today b).year = today.year ∧
      (resolveNextBirthday today b).month = today.month ∧
      (resolveNextBirthday today b).day = today.day) := by
  refine ⟨resolve_ge today b, ?_, ?_⟩
  · unfold resolveNextBirthday
    by_cases h : DateTime.lt (b.setFullYear today.year) today
    · simp only [h, if_true, if_pos]
      rw [setFullYear_year]
    · simp only [h, if_false, if_neg]
      rw [setFullYear_year]
  · intro hm hd
    have hcand : b.setFullYear today.year =
        DateTime.mk today.year today.month today.day b.time := by
      unfold DateTime.setFullYear
      split
      case isTrue hcond =>
        exfalso
        simp only [Bool.and_eq_true, beq_iff_eq, Bool.not_eq_true'] at hcond
        obtain ⟨⟨h2, h29⟩, hleap⟩ := hcond
        have hday : today.day ≤ daysInMonth today.year today.month := hv.2.2.2.1
        rw [← hm, ← hd, h2, h29] at hday
        simp only [daysInMonth, hleap] at hday
        simp at hday
      case isFalse => rw [hm, hd]
    have hnlt : ¬ DateTime.lt (b.setFullYear today.year) today := by
      rw [hcand]
      unfold DateTime.lt
      dsimp only
      omega
    unfold resolveNextBirthday
    simp only [hnlt, if_false, if_neg]
    rw [hcand]
    exact ⟨rfl, rfl, rfl⟩

/-- Witness for `spec_c3`: today is Dec 20 2025 at midnight; the stored
birthday Dec 20 1990 resolves to the same day. -/
theorem spec_c3_witness :
    (DateTime.mk 2025 12 20 0).Valid ∧ (DateTime.mk 2025 12 20 0).time = 0 ∧
    (DateTime.le (DateTime.mk 2025 12 20 0)
        (resolveNextBirthday (DateTime.mk 2025 12 20 0)
          (DateTime.mk 1990 12 20 0)) ∧
      (resolveNextBirthday (DateTime.mk 2025 12 20 0)
          (DateTime.mk 1990 12 20 0)).year =
        (if DateTime.lt ((DateTime.mk 1990 12 20 0).setFullYear
            (DateTime.mk 2025 12 20 0).year) (DateTime.mk 2025 12 20 0) then
          (DateTime.mk 2025 12 20 0).year + 1
         else (DateTime.mk 2025 12 20 0).year) ∧
      ((DateTime.mk 1990 12 20 0).month = (DateTime.mk 2025 12 20 0).month →
        (DateTime.mk 1990 12 20 0).day = (DateTime.mk 2025 12 20 0).day →
        (resolveNextBirthday (DateTime.mk 2025 12 20 0)
            (DateTime.mk 1990 12 20 0)).year = (DateTime.mk 2025 12 20 0).year ∧
        (resolveNextBirthday (DateTime.mk 2025 12 20 0)
            (DateTime.mk 1990 12 20 0)).month =
          (DateTime.mk 2025 12 20 0).month ∧
        (resolveNextBirthday (DateTime.mk 2025 12 20 0)
            (DateTime.mk 1990 12 20 0)).day = (DateTime.mk 2025 12 20 0).day)) :=
  ⟨by decide, rfl,
   spec_c3 (DateTime.mk 2025 12 20 0) (DateTime.mk 1990 12 20 0)
     (by decide) rfl⟩

/-- Claim C4: the upcoming list contains exactly the pairs of a coworker
with a stored birthday and its resolution into `[today, today + 30 days]`
(both endpoints included), and the list is sorted ascending by resolved
date. -/
theorem spec_c4 (today : DateTime) (cws : List Coworker) :
    (∀ p : Coworker × DateTime,
      p ∈ upcomingBirthdays today cws ↔
        ((∃ cw b, cw ∈ cws ∧ cw.birthday = some b ∧
            p = (cw, resolveNextBirthday today b)) ∧
          DateTime.le today p.2 ∧ DateTime.le p.2 (today.addDays 30))) ∧
    (upcomingBirthdays today cws).Pairwise
      (fun p q => DateTime.le p.2 q.2) := by
  constructor
  · exact fun p => mem_upcomingBirthdays today cws p
  · unfold upcomingBirthdays
    have hs := @List.sorted_mergeSort (Coworker × DateTime)
      (fun p q => decide (DateTime.le p.2 q.2))
      (fun a b c hab hbc => by
        simp only [decide_eq_true_eq] at hab hbc ⊢
        exact DateTime.le_trans hab hbc)
      (fun a b => by
        simp only [Bool.or_eq_true, decide_eq_true_eq]
        exact DateTime.le_total a.2 b.2)
      ((cws.filterMap (fun cw =>
          cw.birthday.map (fun b => (cw, resolveNextBirthday today b))))
        |>.filter (fun p =>
          decide (DateTime.le today p.2) &&
            decide (DateTime.le p.2 (today.addDays 30))))
    exact hs.imp (fun h => by simpa using h)

/-- Claim C5: on a pair whose current state is `unpaid`, the interaction
opens the amount modal; confirming with a positive numeric amount stores
the pair as `pledged` with exactly that amount, while cancelling, a
non-numeric confirmation, or a non-positive confirmation leaves the
contributions collection unchanged (no store write). -/
theorem spec_c5 (conts : List Contribution) (cws : List Coworker)
    (r c : String) (y : Int) (m : ModalOutcome)
    (h : (match currentEntry conts r y c with
          | some e => e.status
          | none => "unpaid") = "unpaid") :
    (∀ q : ℚ, modalPledge m = some q →
      currentEntry (clickInteraction conts cws r c y m) r y c =
        some (Entry.mk q "pledged")) ∧
    (modalPledge m = none → clickInteraction conts cws r c y m = conts) ∧
    (∀ q : ℚ, 0 < q → modalPledge (ModalOutcome.save (some q)) = some q) ∧
    modalPledge ModalOutcome.cancel = none ∧
    modalPledge (ModalOutcome.save none) = none ∧
    (∀ q : ℚ, ¬ 0 < q → modalPledge (ModalOutcome.save (some q)) = none) := by
  refine ⟨?_, ?_, fun q hq => by simp [modalPledge, hq], rfl, rfl,
    fun q hq => by simp [modalPledge, hq]⟩
  · intro q hq
    unfold clickInteraction
    have hc : handleContributionClick (currentEntry conts r y c) m =
        some (Entry.mk q "pledged") := by
      cases he : currentEntry conts r y c with
      | none => simp [handleContributionClick, hq]
      | some e =>
          rw [he] at h
          have h' : e.status = "unpaid" := h
          simp [handleContributionClick, h', hq]
    rw [hc]
    exact currentEntry_updateContribution conts cws r c y (Entry.mk q "pledged")
  · intro hq
    have hc : handleContributionClick (currentEntry conts r y c) m = none := by
      cases he : currentEntry conts r y c with
      | none => simp [handleContributionClick, hq]
      | some e =>
          rw [he] at h
          have h' : e.status = "unpaid" := h
          simp [handleContributionClick, h', hq]
    unfold clickInteraction
    rw [hc]

/-- Witness for `spec_c5`: an empty store, a confirmed pledge of 5 creates
a `pledged` entry with amount 5; a cancelled modal writes nothing. -/
theorem spec_c5_witness :
    (match currentEntry [] "R" 2025 "X" with
     | some e => e.status
     | none => "unpaid") = "unpaid" ∧
    currentEntry
        (clickInteraction [] [] "R" "X" 2025 (ModalOutcome.save (some 5)))
        "R" 2025 "X" = some (Entry.mk 5 "pledged") ∧
    clickInteraction [] [] "R" "X" 2025 ModalOutcome.cancel = [] :=
  ⟨rfl,
   (spec_c5 [] [] "R" "X" 2025 (ModalOutcome.save (some 5)) rfl).1 5
     (by decide),
   (spec_c5 [] [] "R" "X" 2025 ModalOutcome.cancel rfl).2.1 rfl⟩

/-- Claim C6 fails on the code: the lazy initialisation in
`updateContribution` (App.jsx lines 271–273) iterates over *all*
coworkers, including the birthday recipient, so the recipient's id does
appear as a key of its own record's contributors map: with coworkers
`R` and `X` and an empty store, a first status change for `(R, 2025)`
creates a record whose contributors map contains the key `R`. -/
theorem spec_c6_counterexample :
    getKey
      (contributionDataFor
        (updateContribution []
          [Coworker.mk "R" "Rita" none, Coworker.mk "X" "Xan" none]
          "R" "X" 2025 (Entry.mk 100 "pledged"))
        (contributionId "R" 2025))
      "R" = some (Entry.mk 0 "unpaid") := by
  decide

/-- Claim C6 amended: in a contribution record created lazily on the first
status change for a `(recipient, year)`, the keys of the contributors
mapping are all coworkers — the recipient included — together with the
acting contributor; the recipient is excluded only at display time. -/
theorem spec_c6 (conts : List Contribution) (cws : List Coworker)
    (r c : String) (y : Int) (v : Entry)
    (hnone : conts.find? (fun d => d.id == contributionId r y) = none) :
    ∀ k : String,
      (currentEntry (updateContribution conts cws r c y v) r y k).isSome ↔
        (k ∈ cws.map Coworker.id ∨ k = c) := by
  intro k
  unfold currentEntry
  rw [contributionDataFor_updateContribution, hnone]
  rw [getKey_setKey_isSome]
  rw [getKey_initMap]

/-- Witness for `spec_c6`: in the lazily created record for recipient `R`,
the recipient's own id `R` is a key. -/
theorem spec_c6_witness :
    (([] : List Contribution).find?
        (fun d => d.id == contributionId "R" 2025) = none) ∧
    (currentEntry
        (updateContribution []
          [Coworker.mk "R" "Rita" none, Coworker.mk "X" "Xan" none]
          "R" "X" 2025 (Entry.mk 100 "pledged"))
        "R" 2025 "R").isSome :=
  ⟨rfl,
   (spec_c6 [] [Coworker.mk "R" "Rita" none, Coworker.mk "X" "Xan" none]
       "R" "X" 2025 (Entry.mk 100 "pledged") rfl "R").mpr
     (Or.inl (by simp))⟩

-- ## Amount invariant of state-machine-produced entries

theorem interact_inv (e : Entry) (m : ModalOutcome)
    (hinv : e.status = "unpaid" → e.amount = 0) :
    (interact e m).status = "unpaid" → (interact e m).amount = 0 := by
  by_cases h1 : e.status = "unpaid"
  · cases hq : modalPledge m with
    | none => rw [interact_unpaid_nowrite e m h1 hq]; exact hinv
    | some q =>
        rw [interact_unpaid_write e m q h1 hq]
        intro hh; simp at hh
  · by_cases h2 : e.status = "pledged"
    · rw [interact_pledged e m h2]; intro hh; simp at hh
    · by_cases h3 : e.status = "paid"
      · rw [interact_paid e m h3]; intro _; rfl
      · by_cases h4 : e.status = ""
        · cases hq : modalPledge m with
          | none =>
              have he : interact e m = e := by
                simp [interact, handleContributionClick, h4, hq]
              rw [he]; exact hinv
          | some q =>
              have he : interact e m = Entry.mk q "pledged" := by
                simp [interact, handleContributionClick, h4, hq]
              rw [he]; intro hh; simp at hh
        · have he : interact e m = e := by
            simp [interact, handleContributionClick, h1, h2, h3, h4]
          rw [he]; exact hinv

theorem foldl_interact_inv (ms : List ModalOutcome) :
    ∀ e : Entry, (e.status = "unpaid" → e.amount = 0) →
      ((ms.foldl interact e).status = "unpaid" →
        (ms.foldl interact e).amount = 0) := by
  induction ms with
  | nil => intro e h; exact h
  | cons m ms ih =>
      intro e h
      exact ih (interact e m) (interact_inv e m h)

/-- Claim C7 fails on the code: the contribution cell renders the amount
whenever it is positive, regardless of the status (App.jsx line 536), so
a stored entry `{ amount: 500, status: 'unpaid' }` does show its nonzero
amount. -/
theorem spec_c7_counterexample :
    (displayedEntry [("X", Entry.mk 500 "unpaid")] "X").status = "unpaid" ∧
    renderedAmount [("X", Entry.mk 500 "unpaid")] "X" = some 500 := by
  constructor
  · decide
  · decide

/-- Claim C7 amended: the cell shows the stored amount whenever it is
positive, irrespective of the status; an absent entry defaults to
`unpaid/0` and shows no amount, and every `unpaid` entry that the app's
own transitions can produce (the implicit initial state and any
interaction sequence from it) has amount 0 and therefore shows no
amount. -/
theorem spec_c7 :
    (∀ (contributionData : List (String × Entry)) (k : String),
      getKey contributionData k = none →
      renderedAmount contributionData k = none) ∧
    (∀ (contributionData : List (String × Entry)) (k : String) (e : Entry),
      getKey contributionData k = some e → e.status = "unpaid" →
      e.amount = 0 → renderedAmount contributionData k = none) ∧
    (initialEntry.status = "unpaid" ∧ initialEntry.amount = 0) ∧
    (∀ ms : List ModalOutcome,
      (runClicks ms).status = "unpaid" → (runClicks ms).amount = 0) := by
  refine ⟨?_, ?_, ⟨rfl, rfl⟩, ?_⟩
  · intro data k h
    unfold renderedAmount displayedEntry
    rw [h]
    simp
  · intro data k e hk hs ha
    unfold renderedAmount displayedEntry
    rw [hk]
    simp [ha]
  · intro ms
    exact foldl_interact_inv ms initialEntry (fun _ => rfl)

/-- Witness for `spec_c7`: an absent entry renders no amount, a reachable
`unpaid` entry (after pledge, pay, reset) has amount 0 and renders no
amount. -/
theorem spec_c7_witness :
    renderedAmount [] "X" = none ∧
    renderedAmount [("X", Entry.mk 0 "unpaid")] "X" = none ∧
    ((runClicks [ModalOutcome.save (some 5), ModalOutcome.cancel,
        ModalOutcome.cancel]).status = "unpaid" →
      (runClicks [ModalOutcome.save (some 5), ModalOutcome.cancel,
        ModalOutcome.cancel]).amount = 0) :=
  ⟨spec_c7.1 [] "X" rfl,
   spec_c7.2.1 [("X", Entry.mk 0 "unpaid")] "X" (Entry.mk 0 "unpaid")
     rfl rfl rfl,
   spec_c7.2.2.2 [ModalOutcome.save (some 5), ModalOutcome.cancel,
     ModalOutcome.cancel]⟩

/-- Claim C9: deleting a coworker is one batch that removes the coworker
document and strips that coworker's key from the contributors mapping of
every contribution record referencing it, leaves every other
contributor's entry unchanged, and leaves records that do not reference
the coworker entirely untouched; the whole batch is a single transition
of the store state. -/
theorem spec_c9 (cws : List Coworker) (conts : List Contribution)
    (x : String) :
    (handleDeleteCoworker cws conts x).1 =
        cws.filter (fun cw => !(cw.id == x)) ∧
    (∀ cw ∈ (handleDeleteCoworker cws conts x).1, cw.id ≠ x) ∧
    (∀ cw ∈ cws, cw.id ≠ x → cw ∈ (handleDeleteCoworker cws conts x).1) ∧
    (handleDeleteCoworker cws conts x).2 = conts.map (stripContributor x) ∧
    (∀ c : Contribution,
      (stripContributor x c).id = c.id ∧
      (stripContributor x c).birthdayCoworkerId = c.birthdayCoworkerId ∧
      (stripContributor x c).year = c.year ∧
      getKey (stripContributor x c).contributors x = none ∧
      (∀ k : String, k ≠ x →
        getKey (stripContributor x c).contributors k =
          getKey c.contributors k) ∧
      (getKey c.contributors x = none → stripContributor x c = c)) := by
  refine ⟨rfl, ?_, ?_, rfl, ?_⟩
  · intro cw hcw
    rw [handleDeleteCoworker] at hcw
    simp only [List.mem_filter, Bool.not_eq_true'] at hcw
    simpa using hcw.2
  · intro cw hcw hne
    rw [handleDeleteCoworker]
    simp only [List.mem_filter, Bool.not_eq_true']
    exact ⟨hcw, by simpa using hne⟩
  · intro c
    unfold stripContributor
    by_cases h : (getKey c.contributors x).isSome
    · rw [if_pos h]
      refine ⟨rfl, rfl, rfl, getKey_eraseKey_self c.contributors x, ?_, ?_⟩
      · intro k hk
        exact getKey_eraseKey_ne c.contributors x k hk
      · intro hnone
        rw [hnone] at h
        simp at h
    · rw [if_neg h]
      exact ⟨rfl, rfl, rfl, Option.not_isSome_iff_eq_none.mp h,
        fun _ _ => rfl, fun _ => rfl⟩

/-- Witness for `spec_c9`: deleting coworker `X` from a store with two
records referencing it and one not. -/
theorem spec_c9_witness :
    (∀ cw ∈ (handleDeleteCoworker
        [Coworker.mk "X" "Xan" none, Coworker.mk "R" "Rita" none]
        [Contribution.mk "R_2025" "R" 2025
          [("X", Entry.mk 100 "paid"), ("Y", Entry.mk 50 "pledged")]]
        "X").1, cw.id ≠ "X") ∧
    getKey (stripContributor "X"
        (Contribution.mk "R_2025" "R" 2025
          [("X", Entry.mk 100 "paid"), ("Y", Entry.mk 50 "pledged")])
      ).contributors "X" = none ∧
    ("Y" ≠ "X" ∧
      getKey (stripContributor "X"
          (Contribution.mk "R_2025" "R" 2025
            [("X", Entry.mk 100 "paid"), ("Y", Entry.mk 50 "pledged")])
        ).contributors "Y" =
        getKey (Contribution.mk "R_2025" "R" 2025
            [("X", Entry.mk 100 "paid"), ("Y", Entry.mk 50 "pledged")]
          ).contributors "Y") ∧
    (getKey (Contribution.mk "Q_2025" "Q" 2025
        [("Y", Entry.mk 50 "pledged")]).contributors "X" = none →
      stripContributor "X" (Contribution.mk "Q_2025" "Q" 2025
        [("Y", Entry.mk 50 "pledged")]) =
        Contribution.mk "Q_2025" "Q" 2025 [("Y", Entry.mk 50 "pledged")]) :=
  ⟨(spec_c9 [Coworker.mk "X" "Xan" none, Coworker.mk "R" "Rita" none]
      [Contribution.mk "R_2025" "R" 2025
        [("X", Entry.mk 100 "paid"), ("Y", Entry.mk 50 "pledged")]]
      "X").2.1,
   ((spec_c9 [] [] "X").2.2.2.2 (Contribution.mk "R_2025" "R" 2025
      [("X", Entry.mk 100 "paid"), ("Y", Entry.mk 50 "pledged")])).2.2.2.1,
   ⟨by decide,
    ((spec_c9 [] [] "X").2.2.2.2 (Contribution.mk "R_2025" "R" 2025
        [("X", Entry.mk 100 "paid"), ("Y", Entry.mk 50 "pledged")])
      ).2.2.2.2.1 "Y" (by decide)⟩,
   ((spec_c9 [] [] "X").2.2.2.2 (Contribution.mk "Q_2025" "Q" 2025
      [("Y", Entry.mk 50 "pledged")])).2.2.2.2.2⟩

/-- Claim C10: the resolved next birthday keeps the stored birthday's
time-of-day while both window bounds are midnight instants (the
30-day bound keeps today's midnight time), so a coworker whose resolved
next birthday falls on the final, 30th day of the window is in the
upcoming list exactly when the stored time-of-day is midnight. -/
theorem spec_c10 :
    (∀ today b : DateTime, (resolveNextBirthday today b).time = b.time) ∧
    (∀ today : DateTime, (today.addDays 30).time = today.time) ∧
    (∀ (today : DateTime) (cw : Coworker) (b : DateTime)
        (cws : List Coworker),
      today.time = 0 → cw ∈ cws → cw.birthday = some b →
      (resolveNextBirthday today b).year = (today.addDays 30).year →
      (resolveNextBirthday today b).month = (today.addDays 30).month →
      (resolveNextBirthday today b).day = (today.addDays 30).day →
      ((cw, resolveNextBirthday today b) ∈ upcomingBirthdays today cws ↔
        b.time = 0)) := by
  refine ⟨resolve_time, fun today => addDays_time today 30, ?_⟩
  intro today cw b cws ht hcw hb hy hm hd
  rw [mem_upcomingBirthdays]
  dsimp only
  have htime : (resolveNextBirthday today b).time = b.time :=
    resolve_time today b
  have hn30 : (today.addDays 30).time = 0 := by
    rw [addDays_time]; exact ht
  constructor
  · rintro ⟨-, -, hle⟩
    have hle' : (resolveNextBirthday today b).time ≤ (today.addDays 30).time := by
      unfold DateTime.le at hle
      omega
    omega
  · intro hb0
    refine ⟨⟨cw, b, hcw, hb, rfl⟩, resolve_ge today b, ?_⟩
    unfold DateTime.le
    omega

set_option maxRecDepth 8000 in
/-- Witness for `spec_c10`: today is June 1 2025 at midnight, the stored
birthday July 1 2000 (midnight) resolves to July 1 2025, the 30th and
final day of the window, and the coworker is in the upcoming list. -/
theorem spec_c10_witness :
    ((DateTime.mk 2025 6 1 0).time = 0 ∧
      Coworker.mk "A" "Alice" (some (DateTime.mk 2000 7 1 0)) ∈
        [Coworker.mk "A" "Alice" (some (DateTime.mk 2000 7 1 0))] ∧
      (Coworker.mk "A" "Alice" (some (DateTime.mk 2000 7 1 0))).birthday =
        some (DateTime.mk 2000 7 1 0) ∧
      (resolveNextBirthday (DateTime.mk 2025 6 1 0)
          (DateTime.mk 2000 7 1 0)).year =
        ((DateTime.mk 2025 6 1 0).addDays 30).year ∧
      (resolveNextBirthday (DateTime.mk 2025 6 1 0)
          (DateTime.mk 2000 7 1 0)).month =
        ((DateTime.mk 2025 6 1 0).addDays 30).month ∧
      (resolveNextBirthday (DateTime.mk 2025 6 1 0)
          (DateTime.mk 2000 7 1 0)).day =
        ((DateTime.mk 2025 6 1 0).addDays 30).day) ∧
    (Coworker.mk "A" "Alice" (some (DateTime.mk 2000 7 1 0)),
        resolveNextBirthday (DateTime.mk 2025 6 1 0)
          (DateTime.mk 2000 7 1 0)) ∈
      upcomingBirthdays (DateTime.mk 2025 6 1 0)
        [Coworker.mk "A" "Alice" (some (DateTime.mk 2000 7 1 0))] :=
  ⟨⟨rfl, by simp, rfl, by decide, by decide, by decide⟩,
   (spec_c10.2.2 (DateTime.mk 2025 6 1 0)
       (Coworker.mk "A" "Alice" (some (DateTime.mk 2000 7 1 0)))
       (DateTime.mk 2000 7 1 0)
       [Coworker.mk "A" "Alice" (some (DateTime.mk 2000 7 1 0))]
       rfl (by simp) rfl (by decide) (by decide) (by decide)).mpr rfl⟩

set_option maxRecDepth 8000 in
/-- Witness for `spec_c4`: sortedness of a concrete two-coworker upcoming
list (June 10 before June 15, today June 1 2025). -/
theorem spec_c4_witness :
    (upcomingBirthdays (DateTime.mk 2025 6 1 0)
        [Coworker.mk "A" "Alice" (some (DateTime.mk 2000 6 15 0)),
         Coworker.mk "B" "Bob" (some (DateTime.mk 1999 6 10 0))]).Pairwise
      (fun p q => DateTime.le p.2 q.2) :=
  (spec_c4 (DateTime.mk 2025 6 1 0)
    [Coworker.mk "A" "Alice" (some (DateTime.mk 2000 6 15 0)),
     Coworker.mk "B" "Bob" (some (DateTime.mk 1999 6 10 0))]).2
